import Mathlib

/-!
Verification of the token-list client core (src/src/App.tsx and src/Token.tsx)
against its natural-language specification.

The embedding is shallow: each relevant fragment of the TypeScript source is
translated into an executable Lean definition, and the spec claims are settled
as theorems about those definitions.  Asynchronous control flow is modelled by
explicit sequencing (one await = one sequencing step), remote calls by oracle
functions passed as arguments, and the React notification state by a record
plus an explicit timer queue.
-/

/-! ## A model of JSON values, as produced by JSON.parse

Numbers are modelled as integers (the payloads inspected by the code only ever
carry strings; no fractional values are relevant to any claim). -/

inductive Json where
  | null : Json
  | bool : Bool → Json
  | num : Int → Json
  | str : String → Json
  | arr : List Json → Json
  | obj : List (String × Json) → Json

/-- JavaScript truthiness of a parsed JSON value (0, empty string, false and
null are falsy; arrays and objects are always truthy). -/
def jsTruthy : Json → Bool
  | Json.null => false
  | Json.bool b => b
  | Json.num n => n != 0
  | Json.str s => s != ""
  | Json.arr _ => true
  | Json.obj _ => true

/-- Optional-chaining property access, value?.k : returns the field when the
value is an object that has it; undefined (none) when the value is
null/undefined or a non-object or lacks the field.  Mirrors the JS expression
jsonError?.kind?.ExecutionError access steps. -/
def jsField : Option Json → String → Option Json
  | none, _ => none
  | some Json.null, _ => none
  | some (Json.obj fields), k => (fields.find? (fun p => p.1 == k)).map Prod.snd
  | some _, _ => none

/-- Boolean test that the character list n occurs as a prefix of h. -/
def leadsB : List Char → List Char → Bool
  | [], _ => true
  | _ :: _, [] => false
  | c :: cs, d :: ds => c == d && leadsB cs ds

/-- Boolean test that n occurs as a contiguous sublist of h. -/
def containsSub (n : List Char) : List Char → Bool
  | [] => leadsB n []
  | c :: cs => leadsB n (c :: cs) || containsSub n cs

/-- Model of the JS String.prototype.includes substring test: hay includes
needle. -/
def strIncludes (hay needle : String) : Bool :=
  containsSub needle.data hay.data

/-- Model of the JS value.includes(needle) call appearing in the catch block:
defined for strings (substring test) and arrays (strict-equality element
test); any other receiver has no includes method, so the call raises a
TypeError, modelled as Except.error. -/
def jsIncludesB : Json → String → Except Unit Bool
  | Json.str s, needle => Except.ok (strIncludes s needle)
  | Json.arr xs, needle =>
      Except.ok (xs.any (fun j => match j with
        | Json.str t => t == needle
        | _ => false))
  | _, _ => Except.error ()

/-- The error substring the catch block of App.onSubmit searches for
(src/src/App.tsx line 109). -/
def verificationNeedle : String :=
  "Unable to get result of token account verification"

/-- The failure-notification message (src/src/App.tsx line 113). -/
def notTokenMsg : String :=
  "The provided account ID does not contain a fungible token contract"

/-- The blocking alert text (src/src/App.tsx lines 127-131, the three string
literals concatenated). -/
def alertText : String :=
  "Something went wrong! " ++ "Maybe you need to sign out and back in? " ++
    "Check your browser console for more info."

/-- What the catch block of App.onSubmit does with a rejected add_token call,
as a function of the JSON.parse outcome on the error message (none =
JSON.parse threw). -/
inductive CatchOutcome where
  | rejectedNotAToken
  | silentNoMatch
  | alertAndRethrow
deriving DecidableEq

/-- The lookup jsonError?.kind?.ExecutionError from src/src/App.tsx line 107. -/
def execField (j : Json) : Option Json :=
  jsField (jsField (some j) ("kind")) ("ExecutionError")

/-- Faithful embedding of the catch block of App.onSubmit (src/src/App.tsx
lines 102-133).  The input is the result of JSON.parse on the error message
(none when parsing throws).  The block computes
isNotTokenAccount = jsonError and jsonError?.kind?.ExecutionError and
jsonError.kind.ExecutionError.includes(needle); when that evaluation itself
throws (unparseable payload, or an ExecutionError value with no usable
includes method) the inner catch shows the blocking alert and re-raises;
when it evaluates to a falsy value the block does nothing at all. -/
def classifyCatch : Option Json → CatchOutcome
  | none => CatchOutcome.alertAndRethrow
  | some j =>
    if jsTruthy j then
      match execField j with
      | none => CatchOutcome.silentNoMatch
      | some ev =>
        if jsTruthy ev then
          match jsIncludesB ev verificationNeedle with
          | Except.ok true => CatchOutcome.rejectedNotAToken
          | Except.ok false => CatchOutcome.silentNoMatch
          | Except.error _ => CatchOutcome.alertAndRethrow
        else CatchOutcome.silentNoMatch
    else CatchOutcome.silentNoMatch

/-! ## The submit pipeline as an effect trace -/

/-- The auto-clear delay of a notification: the source passes 11000 ms to
setTimeout (src/src/App.tsx lines 101 and 124); the spec counts it as 11 time
units, so one unit is one second here. -/
def autoClearDelay : Nat := 11

/-- Observable side effects of one form submission, in program order. -/
inductive Effect where
  | disableForm : Effect
  | remoteAdd : String → Effect
  | notifySuccess : String → Effect
  | notifyFailure : String → Effect
  | scheduleClear : Nat → Effect
  | alertShown : String → Effect
  | enableForm : Effect
  | resync : Effect
deriving DecidableEq

/-- A rejected remote add call, carrying the JSON.parse outcome of its error
message. -/
structure RemoteErr where
  parsed : Option Json

/-- The outcome of one onSubmit run: the effect trace and the error re-raised
to the caller, if any. -/
structure SubmitRun where
  effects : List Effect
  raised : Option RemoteErr

/-- Faithful embedding of the form onSubmit handler (src/src/App.tsx lines
79-139): disable the fieldset, call add_token with the field value, then
either the success branch (success notification plus auto-clear timer), or
the catch block as modelled by classifyCatch; the finally block re-enables
the fieldset and re-syncs unconditionally, and the re-raised error (if any)
propagates after the finally block has run. -/
def onSubmit (tokenValue : String) (addResult : Except RemoteErr Bool) : SubmitRun :=
  match addResult with
  | Except.ok _ =>
      { effects := [Effect.disableForm, Effect.remoteAdd tokenValue,
          Effect.notifySuccess ("Added " ++ tokenValue ++ " to the token list"),
          Effect.scheduleClear autoClearDelay, Effect.enableForm, Effect.resync],
        raised := none }
  | Except.error e =>
    match classifyCatch e.parsed with
    | CatchOutcome.rejectedNotAToken =>
        { effects := [Effect.disableForm, Effect.remoteAdd tokenValue,
            Effect.notifyFailure notTokenMsg,
            Effect.scheduleClear autoClearDelay, Effect.enableForm, Effect.resync],
          raised := none }
    | CatchOutcome.silentNoMatch =>
        { effects := [Effect.disableForm, Effect.remoteAdd tokenValue,
            Effect.enableForm, Effect.resync],
          raised := none }
    | CatchOutcome.alertAndRethrow =>
        { effects := [Effect.disableForm, Effect.remoteAdd tokenValue,
            Effect.alertShown alertText, Effect.enableForm, Effect.resync],
          raised := some e }

/-- The onChange handler of the token input field (src/src/App.tsx line 156):
the Add button is disabled exactly when the field value has length zero. -/
def buttonDisabledAfterChange (value : String) : Bool :=
  value.length == 0

/-! ## The notification lifecycle with explicit timers

The React state triple (notificationMessage, isFailureNotification,
showNotification) is a record; every setTimeout call appends a fire time to a
timer queue, and time advances by firing due timers in increasing order.  The
source never calls clearTimeout, so firing is the only way a timer leaves the
queue. -/

/-- The three notification state hooks of App (src/src/App.tsx lines 52-54). -/
structure NotifState where
  message : String
  isFailure : Bool
  visible : Bool
deriving DecidableEq

/-- Notification state plus the queue of pending setTimeout fire times. -/
structure NotifSys where
  state : NotifState
  timers : List Nat
deriving DecidableEq

/-- Initial hook values: empty message, not a failure, not shown. -/
def initSys : NotifSys :=
  { state := { message := "", isFailure := false, visible := false }, timers := [] }

/-- The state written by every timer callback (src/src/App.tsx lines 97-101
and 120-124): message reset, failure flag reset, notification hidden. -/
def clearedState : NotifState :=
  { message := "", isFailure := false, visible := false }

/-- The success branch of onSubmit acting on the notification system
(src/src/App.tsx lines 92-101): it sets the message and makes the
notification visible, schedules an auto-clear, and does not touch the
isFailure flag. -/
def showSuccessNotif (identifier : String) (now : Nat) (s : NotifSys) : NotifSys :=
  { state := { s.state with
      message := "Added " ++ identifier ++ " to the token list",
      visible := true },
    timers := s.timers ++ [now + autoClearDelay] }

/-- The recognised-rejection branch of onSubmit acting on the notification
system (src/src/App.tsx lines 112-124): sets the fixed failure message, the
failure flag and visibility, and schedules an auto-clear. -/
def showFailureNotif (now : Nat) (s : NotifSys) : NotifSys :=
  { state := { message := notTokenMsg, isFailure := true, visible := true },
    timers := s.timers ++ [now + autoClearDelay] }

/-- Fire every timer due at instant t: each due callback writes clearedState;
the due entries leave the queue.  When nothing is due the system is
unchanged. -/
def fireAt (t : Nat) (s : NotifSys) : NotifSys :=
  if s.timers.contains t then
    { state := clearedState, timers := s.timers.filter (fun x => x != t) }
  else s

/-- Advance time from instant 0 through instant t, firing due timers in
increasing order of their deadlines. -/
def runTo (t : Nat) (s : NotifSys) : NotifSys :=
  (List.range (t + 1)).foldl (fun acc u => fireAt u acc) s

/-! ## The enricher (getTokenData) -/

/-- Token metadata as declared in src/Token.tsx lines 7-15. -/
structure FungibleTokenMetadata where
  spec : String
  name : String
  symbol : String
  icon : Option String
  reference : Option String
  reference_hash : Option String
  decimals : Nat
deriving DecidableEq

/-- One enriched record, as declared in src/src/App.tsx lines 12-16.  The
source types the balance as number | null; it is modelled as an optional
integer. -/
structure TokenData where
  accountId : String
  balance : Option Int
  metadata : FungibleTokenMetadata
deriving DecidableEq

/-- A remote view call issued during enrichment: either
ft_balance_of on a token contract for a given account_id argument, or
ft_metadata on a token contract. -/
inductive Lookup where
  | balanceLookup : String → String → Lookup
  | metadataLookup : String → Lookup
deriving DecidableEq

/-- Whether a lookup is a balance lookup. -/
def Lookup.isBalance : Lookup → Bool
  | Lookup.balanceLookup _ _ => true
  | Lookup.metadataLookup _ => false

/-- JavaScript truthiness of the accountId parameter of getTokenData, whose
source type is string | undefined: undefined and the empty string are
falsy. -/
def jsTruthyStr : Option String → Bool
  | none => false
  | some s => s != ""

/-- Faithful embedding of the per-entry body of the pMap callback in
getTokenData (src/src/App.tsx lines 26-44).  The balance lookup is gated on
the truthiness of the accountId parameter, but when issued it queries
window.accountId, the global viewer identity, passed here as globalId.  The
two awaits are sequential: the balance lookup settles first, and if it
rejects the async callback rejects without reaching the metadata lookup.
The first component records the lookups actually attempted, in order; the
second is the callback result. -/
def enrichOneTraced (param : Option String) (globalId : String)
    (bOf : String → String → Except Unit Int)
    (mOf : String → Except Unit FungibleTokenMetadata)
    (tokenId : String) : List Lookup × Except Unit TokenData :=
  if jsTruthyStr param then
    match bOf tokenId globalId with
    | Except.error u => ([Lookup.balanceLookup tokenId globalId], Except.error u)
    | Except.ok b =>
      match mOf tokenId with
      | Except.error u =>
          ([Lookup.balanceLookup tokenId globalId, Lookup.metadataLookup tokenId],
            Except.error u)
      | Except.ok m =>
          ([Lookup.balanceLookup tokenId globalId, Lookup.metadataLookup tokenId],
            Except.ok { accountId := tokenId, balance := some b, metadata := m })
  else
    match mOf tokenId with
    | Except.error u => ([Lookup.metadataLookup tokenId], Except.error u)
    | Except.ok m =>
        ([Lookup.metadataLookup tokenId],
          Except.ok { accountId := tokenId, balance := none, metadata := m })

/-- Collect a list of per-entry results the way the pMap promise settles: it
fulfils with all entry results when every entry fulfils, and rejects when
some entry rejects. -/
def sequenceE : List (Except Unit TokenData) → Except Unit (List TokenData)
  | [] => Except.ok []
  | Except.error u :: _ => Except.error u
  | Except.ok r :: rest => (sequenceE rest).map (fun rs => r :: rs)

/-- Faithful embedding of getTokenData (src/src/App.tsx lines 18-45) over a
given registry page: every entry is enriched, the attempted lookups are the
per-entry traces concatenated in input order, and the overall result is the
pMap aggregate. -/
def getTokenData (param : Option String) (globalId : String)
    (bOf : String → String → Except Unit Int)
    (mOf : String → Except Unit FungibleTokenMetadata)
    (tokenAccountIds : List String) :
    List Lookup × Except Unit (List TokenData) :=
  let runs := tokenAccountIds.map (enrichOneTraced param globalId bOf mOf)
  ((runs.map Prod.fst).flatten, sequenceE (runs.map Prod.snd))

/-- True when every record of a fulfilled enrichment result has an absent
balance (vacuously true for a rejected result). -/
def balancesAllNone : Except Unit (List TokenData) → Bool
  | Except.ok rs => rs.all (fun r => r.balance.isNone)
  | Except.error _ => true

/-! ## Completion-order model of pMap

pMap starts one asynchronous callback per input index and writes each result
into the slot of its input index; the output array is read out in index
order once all slots are filled.  A run is therefore described by the list
of (index, result) pairs in the order the callbacks completed; any
permutation of the index-tagged results is a possible completion order. -/

/-- Tag each input with its index (starting at i) and apply the callback. -/
def enumF {β : Type} (f : String → β) : Nat → List String → List (Nat × β)
  | _, [] => []
  | i, a :: as => (i, f a) :: enumF f (i + 1) as

/-- Read the result array back out in input-index order from the completed
(index, result) pairs: slot j holds the result tagged j. -/
def assemble {β : Type} (n : Nat) (completed : List (Nat × β)) : List (Option β) :=
  (List.range n).map (fun j => (completed.find? (fun p => p.1 == j)).map Prod.snd)

/-! ## The balance rendering expression (normalizer) -/

/-- What the balance cell displays: a numeric value or the sentinel dash. -/
inductive Rendered where
  | num : ℚ → Rendered
  | sentinelDash : Rendered
deriving DecidableEq

/-- Faithful embedding of the balance rendering expression in src/Token.tsx
line 59: balance ? (balance ?? 0) / 10 ** metadata.decimals : "-".  The
condition is JS truthiness, so a null balance and a zero balance both take
the sentinel branch; otherwise the quotient is displayed.  The JS
floating-point division is idealised as exact rational division. -/
def renderBalance (balance : Option Int) (decimals : Nat) : Rendered :=
  match balance with
  | none => Rendered.sentinelDash
  | some b =>
    if b != 0 then Rendered.num ((b : ℚ) / 10 ^ decimals)
    else Rendered.sentinelDash

/-- Concrete metadata value used by closed witness and counterexample
statements. -/
def demoMeta : FungibleTokenMetadata :=
  { spec := "ft-1.0", name := "Demo", symbol := "DMO", icon := none,
    reference := none, reference_hash := none, decimals := 6 }

/-! ## Helper lemmas (shared) -/

/-- Firing timers either leaves the state alone or writes clearedState. -/
theorem fireAt_state_cleared (u : Nat) (s : NotifSys) (h : s.state = clearedState) :
    (fireAt u s).state = clearedState := by
  unfold fireAt; split <;> simp [h]

/-- Once the notification state is cleared, advancing time keeps it cleared:
no timer callback ever re-shows a notification. -/
theorem foldl_fireAt_cleared (L : List Nat) (s : NotifSys) (h : s.state = clearedState) :
    (L.foldl (fun acc u => fireAt u acc) s).state = clearedState := by
  induction L generalizing s with
  | nil => exact h
  | cons v L ih => exact ih _ (fireAt_state_cleared v s h)

/-- A due timer fires and clears the notification state. -/
theorem fireAt_fires_mem (u : Nat) (s : NotifSys) (h : s.timers.contains u = true) :
    (fireAt u s).state = clearedState := by
  have h2 : u ∈ s.timers := by simpa using h
  simp [fireAt, h2]

/-- If some pending timer deadline occurs in the processed instant list, the
final notification state is cleared. -/
theorem runTo_clears_of_mem (L : List Nat) (u : Nat) (s : NotifSys)
    (hu : u ∈ L) (ht : s.timers.contains u = true) :
    (L.foldl (fun acc v => fireAt v acc) s).state = clearedState := by
  induction L generalizing s with
  | nil => cases hu
  | cons v L ih =>
    rcases List.mem_cons.mp hu with rfl | hu2
    · exact foldl_fireAt_cleared L _ (fireAt_fires_mem u s ht)
    · by_cases hv : s.timers.contains v = true
      · exact foldl_fireAt_cleared L _ (fireAt_fires_mem v s hv)
      · have hv2 : v ∉ s.timers := by simpa using hv
        have heq : fireAt v s = s := by simp [fireAt, hv2]
        simpa [List.foldl, heq] using ih (fireAt v s) hu2 (by simpa [heq] using ht)

/-- Membership in the index-tagged completion list: exactly the input entries,
tagged with their input positions and mapped through the callback. -/
theorem enumF_mem_iff {β : Type} (f : String → β) (xs : List String) :
    ∀ (i : Nat) (p : Nat × β),
      p ∈ enumF f i xs ↔ ∃ k a, xs[k]? = some a ∧ p.1 = i + k ∧ p.2 = f a := by
  induction xs with
  | nil => intro i p; simp [enumF]
  | cons x xs ih =>
    intro i p
    simp only [enumF, List.mem_cons, ih]
    constructor
    · rintro (rfl | ⟨k, a, hk, hk1, hk2⟩)
      · exact ⟨0, x, by simp, by simp, rfl⟩
      · exact ⟨k + 1, a, by simpa using hk, by omega, hk2⟩
    · rintro ⟨k, a, hk, hk1, hk2⟩
      cases k with
      | zero =>
        left
        have hax : x = a := by simpa using hk
        subst hax
        obtain ⟨p1, p2⟩ := p
        simp only at hk1 hk2
        simp [hk1, hk2]
      | succ k =>
        right
        exact ⟨k, a, by simpa using hk, by omega, hk2⟩

/-! ## Claim C1 -/

/-- Claim C1, counterexample: the payload given by the empty JSON object
parses, does not match the verification-error shape, and the catch block then
does nothing at all: no alert is shown, nothing is re-raised (raised = none),
and no notification effect occurs, contradicting the claim that every
non-matching rejection shows a blocking alert and re-raises the error. -/
theorem c1_counterexample :
    classifyCatch (some (Json.obj [])) = CatchOutcome.silentNoMatch ∧
    (onSubmit ("x.test") (Except.error { parsed := some (Json.obj []) })).raised = none ∧
    (onSubmit ("x.test") (Except.error { parsed := some (Json.obj []) })).effects
      = [Effect.disableForm, Effect.remoteAdd ("x.test"), Effect.enableForm, Effect.resync] :=
  ⟨rfl, rfl, rfl⟩

/-- Claim C1 (amended): an unparseable rejection payload is classified
alertAndRethrow; a payload whose kind.ExecutionError field is a string is
classified rejectedNotAToken exactly when that string contains the
verification substring, and silently swallowed otherwise (no alert, no
re-raise); the original error is re-raised if and only if the classification
is alertAndRethrow; the fixed failure notification fires exactly when the
classification is rejectedNotAToken, and the blocking alert exactly when it
is alertAndRethrow. -/
theorem c1_catch_classification (s msg : String) (e : RemoteErr) :
    classifyCatch none = CatchOutcome.alertAndRethrow ∧
    (classifyCatch (some (Json.obj [(("kind"), Json.obj [(("ExecutionError"), Json.str s)])]))
      = (if strIncludes s verificationNeedle then CatchOutcome.rejectedNotAToken
         else CatchOutcome.silentNoMatch)) ∧
    ((onSubmit msg (Except.error e)).raised
      = (if classifyCatch e.parsed = CatchOutcome.alertAndRethrow then some e else none)) ∧
    ((onSubmit msg (Except.error e)).effects.count (Effect.notifyFailure notTokenMsg)
      = (if classifyCatch e.parsed = CatchOutcome.rejectedNotAToken then 1 else 0)) ∧
    ((onSubmit msg (Except.error e)).effects.count (Effect.alertShown alertText)
      = (if classifyCatch e.parsed = CatchOutcome.alertAndRethrow then 1 else 0)) := by
  refine ⟨rfl, ?_, ?_⟩
  · by_cases hs : s = ""
    · subst hs; decide
    · have ht : (s != "") = true := bne_iff_ne.mpr hs
      simp [classifyCatch, execField, jsField, jsIncludesB, jsTruthy, ht]
      cases hinc : strIncludes s verificationNeedle <;> simp [hinc]
  · rcases h : classifyCatch e.parsed <;>
      simp [onSubmit, h, List.count_cons]

/-! ## Claim C2 -/

/-- Claim C2, counterexample: submitting the empty identifier still issues the
remote add call with the empty identifier, as the second effect of the run,
contradicting the claim that the pipeline rejects empty input before any
remote call. -/
theorem c2_counterexample :
    Effect.remoteAdd "" ∈ (onSubmit "" (Except.ok true)).effects ∧
    (onSubmit "" (Except.ok true)).effects.take 2
      = [Effect.disableForm, Effect.remoteAdd ""] := by
  refine ⟨?_, rfl⟩
  simp [onSubmit]

/-- Claim C2 (amended): the mutation pipeline itself performs no validation
at all: for every identifier, including the empty string, the submit handler
issues the remote add call with exactly that identifier; empty input is
prevented only by the UI layer, which disables the Add button precisely when
the input field is empty. -/
theorem c2_no_core_validation (t : String) (r : Except RemoteErr Bool) :
    (Effect.remoteAdd t ∈ (onSubmit t r).effects) ∧
    (buttonDisabledAfterChange t = true ↔ t = "") := by
  constructor
  · cases r with
    | ok b => simp [onSubmit]
    | error e => rcases h : classifyCatch e.parsed <;> simp [onSubmit, h]
  · constructor
    · intro h
      have hlen : t.length = 0 := by simpa [buttonDisabledAfterChange] using h
      cases t with
      | mk data =>
        cases data with
        | nil => rfl
        | cons c cs => simp [String.length] at hlen
    · intro h; subst h; rfl

/-! ## Claim C3 -/

/-- Claim C3, counterexample: show at instant 0, show again at instant 5
(while the first auto-clear timer is pending); at instant 10 the newer
message is still visible, but at instant 11 the first, uncancelled timer
fires and clears it: after the original 11-unit window the newer message is
hidden and reset, contradicting the claimed cancellation. -/
theorem c3_counterexample :
    (runTo 10 (showSuccessNotif ("B") 5 (showSuccessNotif ("A") 0 initSys))).state.visible = true ∧
    (runTo autoClearDelay (showSuccessNotif ("B") 5 (showSuccessNotif ("A") 0 initSys))).state.visible = false ∧
    (runTo autoClearDelay (showSuccessNotif ("B") 5 (showSuccessNotif ("A") 0 initSys))).state.message = "" :=
  ⟨rfl, rfl, rfl⟩

/-- Claim C3 (amended): the source never cancels a pending auto-clear timer,
so whenever a second notification is shown while the first timer is pending,
the stale timer fires at its original deadline and resets the whole
notification state: at the end of the first 11-unit window the newer message
is not visible. -/
theorem c3_stale_timer_clears (m1 m2 : String) (t1 t2 : Nat)
    (_h1 : t1 < t2) (_h2 : t2 < t1 + autoClearDelay) :
    (runTo (t1 + autoClearDelay)
        (showSuccessNotif m2 t2 (showSuccessNotif m1 t1 initSys))).state
      = clearedState := by
  apply runTo_clears_of_mem _ (t1 + autoClearDelay)
  · exact List.mem_range.mpr (by omega)
  · simp [showSuccessNotif, initSys]

/-- Claim C3 witness: the amended theorem at the concrete instants 0 and 5. -/
theorem c3_stale_timer_clears_witness :
    (0 : Nat) < 5 ∧ 5 < 0 + autoClearDelay ∧
    (runTo (0 + autoClearDelay)
        (showSuccessNotif ("B") 5 (showSuccessNotif ("A") 0 initSys))).state = clearedState :=
  ⟨by decide, by decide, c3_stale_timer_clears ("A") ("B") 0 5 (by decide) (by decide)⟩

/-! ## Claim C4 -/

/-- Claim C4, counterexample: a present zero balance renders as the sentinel
dash, not as the numeric value 0, because the rendering condition is JS
truthiness; this contradicts both the only-if direction of the claimed
equivalence and the promise never to render a zero balance as the
sentinel. -/
theorem c4_counterexample :
    renderBalance (some 0) 0 = Rendered.sentinelDash ∧
    Rendered.sentinelDash ≠ Rendered.num 0 := by
  refine ⟨rfl, ?_⟩
  decide

/-- Claim C4 (amended): the balance cell renders the sentinel exactly when
the balance is absent or zero (the JS truthiness test conflates the two);
every nonzero balance renders as rawBalance divided by 10 to the decimals
power, exactly in this rational-arithmetic model of the JS division. -/
theorem c4_render_balance (b : Int) (d : Nat) (hb : b ≠ 0) :
    renderBalance none d = Rendered.sentinelDash ∧
    renderBalance (some 0) d = Rendered.sentinelDash ∧
    renderBalance (some b) d = Rendered.num ((b : ℚ) / 10 ^ d) ∧
    (∀ ob, renderBalance ob d = Rendered.sentinelDash ↔ (ob = none ∨ ob = some 0)) := by
  refine ⟨rfl, by simp [renderBalance], ?_, ?_⟩
  · simp [renderBalance, hb]
  · intro ob
    cases ob with
    | none => simp [renderBalance]
    | some x =>
      by_cases hx : x = 0
      · subst hx; simp [renderBalance]
      · simp [renderBalance, hx]

/-- Claim C4 witness: the amended theorem at balance 7 and 2 decimals. -/
theorem c4_render_balance_witness :
    (7 : Int) ≠ 0 ∧ renderBalance (some 7) 2 = Rendered.num ((7 : ℚ) / 10 ^ 2) :=
  ⟨by decide, (c4_render_balance 7 2 (by decide)).2.2.1⟩

/-! ## Claim C5 -/

/-- Claim C5 (confirmed): for every completion order of the per-entry
promises, modelled as any permutation of the index-tagged entry results, the
assembled output of the pMap model has one slot per input position, and slot
i holds exactly the enrichment result of the identifier at input position i;
length and order therefore match the input regardless of completion order. -/
theorem c5_order_preserved (param : Option String) (g : String)
    (bOf : String → String → Except Unit Int)
    (mOf : String → Except Unit FungibleTokenMetadata)
    (ids : List String) (completed : List (Nat × Except Unit TokenData))
    (hperm : completed.Perm
      (enumF (fun id => (enrichOneTraced param g bOf mOf id).2) 0 ids)) :
    assemble ids.length completed
      = ids.map (fun id => some ((enrichOneTraced param g bOf mOf id).2)) := by
  apply List.ext_get
  · simp [assemble]
  · intro n h1 h2
    have hlen : n < ids.length := by simpa using h2
    simp only [assemble, List.get_eq_getElem, List.getElem_map, List.getElem_range]
    have hmem : (n, (fun id => (enrichOneTraced param g bOf mOf id).2) ids[n])
        ∈ enumF (fun id => (enrichOneTraced param g bOf mOf id).2) 0 ids := by
      rw [enumF_mem_iff]
      exact ⟨n, ids[n], by simp [List.getElem?_eq_getElem hlen], by simp, rfl⟩
    have hmemc : (n, (enrichOneTraced param g bOf mOf ids[n]).2) ∈ completed :=
      hperm.mem_iff.mpr hmem
    cases hfind : completed.find? (fun p => p.1 == n) with
    | none =>
      exfalso
      have := List.find?_eq_none.mp hfind _ hmemc
      simp at this
    | some p =>
      have hpred := List.find?_some hfind
      have hpmem : p ∈ completed := List.mem_of_find?_eq_some hfind
      have hpe := hperm.mem_iff.mp hpmem
      rw [enumF_mem_iff] at hpe
      obtain ⟨k, a, hk, hk1, hk2⟩ := hpe
      have hp1 : p.1 = n := by simpa using hpred
      have hkn : k = n := by omega
      subst hkn
      have ha : a = ids[k] := by
        rw [List.getElem?_eq_getElem hlen] at hk
        exact (Option.some_inj.mp hk).symm
      subst ha
      simp [hk2]

/-- Claim C5 witness: the theorem on a two-identifier page whose entries
complete in reverse order. -/
theorem c5_order_preserved_witness :
    assemble ((["a.test", "b.test"]).length)
        ((enumF (fun id => (enrichOneTraced none ("g.test")
            (fun _ _ => Except.error ()) (fun _ => Except.ok demoMeta) id).2)
          0 (["a.test", "b.test"])).reverse)
      = (["a.test", "b.test"]).map
          (fun id => some ((enrichOneTraced none ("g.test")
            (fun _ _ => Except.error ()) (fun _ => Except.ok demoMeta) id).2)) :=
  c5_order_preserved none ("g.test") (fun _ _ => Except.error ()) (fun _ => Except.ok demoMeta)
    (["a.test", "b.test"]) _ (List.reverse_perm _)

/-! ## Claim C6 -/

/-- Claim C6, counterexample: with a failure notification still visible (its
timer pending), a successful submit of usdc.test sets the success message
and keeps the notification visible, but the isFailure flag remains true,
contradicting the claim that isFailure is false in every state in which the
successful submit can run. -/
theorem c6_counterexample :
    ((showFailureNotif 0 initSys).state.isFailure = true) ∧
    ((showFailureNotif 0 initSys).state.visible = true) ∧
    ((showSuccessNotif ("usdc.test") 5 (showFailureNotif 0 initSys)).state.message
      = "Added usdc.test to the token list") ∧
    ((showSuccessNotif ("usdc.test") 5 (showFailureNotif 0 initSys)).state.visible = true) ∧
    ((showSuccessNotif ("usdc.test") 5 (showFailureNotif 0 initSys)).state.isFailure = true) :=
  ⟨rfl, rfl, rfl, rfl, rfl⟩

/-- Claim C6 (amended): a successful submit emits exactly one success
notification, with exactly the message Added identifier to the token list,
and makes it visible; however, the success branch leaves the isFailure flag
unchanged from the pre-state, so the notification reports a failure marker
whenever a prior failure flag has not yet been cleared. -/
theorem c6_success_notification (id : String) (t : Nat) (s : NotifSys) :
    ((showSuccessNotif id t s).state.message = "Added " ++ id ++ " to the token list") ∧
    ((showSuccessNotif id t s).state.visible = true) ∧
    ((showSuccessNotif id t s).state.isFailure = s.state.isFailure) ∧
    ((onSubmit id (Except.ok true)).effects.count
        (Effect.notifySuccess ("Added " ++ id ++ " to the token list")) = 1) := by
  refine ⟨rfl, rfl, rfl, ?_⟩
  simp [onSubmit, List.count_cons]

/-! ## Claim C7 -/

/-- Claim C7 (confirmed): whatever the outcome of the remote add call,
including the path on which the original error is re-raised to the caller,
the submit run re-enables the input surface exactly once and triggers
exactly one registry re-sync, and those two effects close the run. -/
theorem c7_unlock_and_resync (t : String) (r : Except RemoteErr Bool) :
    ((onSubmit t r).effects.count Effect.enableForm = 1) ∧
    ((onSubmit t r).effects.count Effect.resync = 1) ∧
    (∃ pre, (onSubmit t r).effects = pre ++ [Effect.enableForm, Effect.resync]) := by
  cases r with
  | ok b =>
    refine ⟨?_, ?_, ⟨[Effect.disableForm, Effect.remoteAdd t,
        Effect.notifySuccess ("Added " ++ t ++ " to the token list"),
        Effect.scheduleClear autoClearDelay], ?_⟩⟩ <;>
      simp [onSubmit, List.count_cons]
  | error e =>
    rcases h : classifyCatch e.parsed
    case rejectedNotAToken =>
      refine ⟨?_, ?_, ⟨[Effect.disableForm, Effect.remoteAdd t,
          Effect.notifyFailure notTokenMsg, Effect.scheduleClear autoClearDelay], ?_⟩⟩ <;>
        simp [onSubmit, h, List.count_cons]
    case silentNoMatch =>
      refine ⟨?_, ?_, ⟨[Effect.disableForm, Effect.remoteAdd t], ?_⟩⟩ <;>
        simp [onSubmit, h, List.count_cons]
    case alertAndRethrow =>
      refine ⟨?_, ?_, ⟨[Effect.disableForm, Effect.remoteAdd t,
          Effect.alertShown alertText], ?_⟩⟩ <;>
        simp [onSubmit, h, List.count_cons]

/-! ## Claim C8 -/

/-- Claim C8, counterexample: with a truthy viewer identity, a rejecting
balance oracle and a succeeding metadata oracle, the per-entry run attempts
only the balance lookup: the metadata lookup is never attempted, so a
balance failure does block the metadata lookup, contradicting the claimed
independence. -/
theorem c8_counterexample :
    ((enrichOneTraced (some ("viewer.test")) ("viewer.test")
        (fun _ _ => Except.error ()) (fun _ => Except.ok demoMeta) ("a.test")).1
      = [Lookup.balanceLookup ("a.test") ("viewer.test")]) ∧
    (Lookup.metadataLookup ("a.test") ∉
      (enrichOneTraced (some ("viewer.test")) ("viewer.test")
        (fun _ _ => Except.error ()) (fun _ => Except.ok demoMeta) ("a.test")).1) := by
  refine ⟨rfl, ?_⟩
  decide

/-- Claim C8 (amended): within one entry the two lookups are sequential, not
independent: when the viewer gate passes, the balance lookup is awaited
first and the metadata lookup is attempted exactly when the balance lookup
succeeds; when the gate fails only the metadata lookup is attempted.  In
particular a metadata failure cannot prevent the balance lookup, which has
already settled, but a balance rejection prevents the metadata lookup. -/
theorem c8_sequential_lookups (param : Option String) (g tokenId : String)
    (bOf : String → String → Except Unit Int)
    (mOf : String → Except Unit FungibleTokenMetadata) :
    (enrichOneTraced param g bOf mOf tokenId).1 =
      (if jsTruthyStr param then
        Lookup.balanceLookup tokenId g ::
          (match bOf tokenId g with
           | Except.ok _ => [Lookup.metadataLookup tokenId]
           | Except.error _ => [])
      else [Lookup.metadataLookup tokenId]) := by
  cases hp : jsTruthyStr param
  · cases hmo : mOf tokenId <;> simp [enrichOneTraced, hp, hmo]
  · cases hb : bOf tokenId g
    · simp [enrichOneTraced, hp, hb]
    · cases hmo : mOf tokenId <;> simp [enrichOneTraced, hp, hb, hmo]

/-! ## Claim C9 -/

/-- Claim C9 (confirmed): with an absent viewer identity the enrichment of
any page attempts exactly one metadata lookup per entry, in input order, and
no balance lookup at all; when the run fulfils, every returned record has an
absent balance. -/
theorem c9_absent_identity (g : String)
    (bOf : String → String → Except Unit Int)
    (mOf : String → Except Unit FungibleTokenMetadata) (ids : List String) :
    (getTokenData none g bOf mOf ids).1 = ids.map Lookup.metadataLookup ∧
    balancesAllNone (getTokenData none g bOf mOf ids).2 = true := by
  induction ids with
  | nil => exact ⟨rfl, rfl⟩
  | cons id ids ih =>
    have h1 : (enrichOneTraced none g bOf mOf id).1 = [Lookup.metadataLookup id] := by
      cases hmo : mOf id <;> simp [enrichOneTraced, jsTruthyStr, hmo]
    constructor
    · calc (getTokenData none g bOf mOf (id :: ids)).1
          = (enrichOneTraced none g bOf mOf id).1 ++ (getTokenData none g bOf mOf ids).1 := rfl
        _ = (id :: ids).map Lookup.metadataLookup := by rw [h1, ih.1]; rfl
    · have h2 : (getTokenData none g bOf mOf (id :: ids)).2
          = (match (enrichOneTraced none g bOf mOf id).2 with
             | Except.error u => Except.error u
             | Except.ok r => ((getTokenData none g bOf mOf ids).2).map (fun rs => r :: rs)) := by
        cases hr : (enrichOneTraced none g bOf mOf id).2 <;>
          simp [getTokenData, sequenceE, hr]
      rw [h2]
      cases hmo : mOf id with
      | error u => simp [enrichOneTraced, jsTruthyStr, hmo, balancesAllNone]
      | ok m =>
        have hr : (enrichOneTraced none g bOf mOf id).2
            = Except.ok { accountId := id, balance := none, metadata := m } := by
          simp [enrichOneTraced, jsTruthyStr, hmo]
        rw [hr]
        cases hrest : (getTokenData none g bOf mOf ids).2 with
        | error u => simp [balancesAllNone, Except.map]
        | ok rs =>
          have := ih.2
          rw [hrest] at this
          simp [balancesAllNone, Except.map] at this ⊢
          exact this

/-! ## Claim C10 -/

/-- Claim C10 (confirmed): the balance lookups attempted by an enrichment run
are exactly one per entry when the accountId parameter is truthy and none
otherwise, and every one of them queries the global viewer identity, not the
parameter: the parameter acts only as the gate, so runs with equal
parameters but different globals query different accounts. -/
theorem c10_balance_queries_global (param : Option String) (g : String)
    (bOf : String → String → Except Unit Int)
    (mOf : String → Except Unit FungibleTokenMetadata) (ids : List String) :
    ((getTokenData param g bOf mOf ids).1.filter Lookup.isBalance)
      = (if jsTruthyStr param then ids.map (fun id => Lookup.balanceLookup id g) else []) := by
  induction ids with
  | nil => cases hp : jsTruthyStr param <;> simp [getTokenData, hp]
  | cons id ids ih =>
    have hstep : (getTokenData param g bOf mOf (id :: ids)).1
        = (enrichOneTraced param g bOf mOf id).1 ++ (getTokenData param g bOf mOf ids).1 := rfl
    rw [hstep, List.filter_append, ih]
    cases hp : jsTruthyStr param
    · have h1 : (enrichOneTraced param g bOf mOf id).1 = [Lookup.metadataLookup id] := by
        cases hmo : mOf id <;> simp [enrichOneTraced, hp, hmo]
      simp [h1, Lookup.isBalance]
    · cases hb : bOf id g with
      | error u => simp [enrichOneTraced, hp, hb, Lookup.isBalance]
      | ok b =>
        cases hmo : mOf id <;> simp [enrichOneTraced, hp, hb, hmo, Lookup.isBalance]
